import Mathlib

/-!
Shallow embedding of the configuration-store logic of `augmenta.py`.

The program is a Streamlit settings editor around one YAML configuration
document (`augmenta.yaml`).  We model YAML values (`Yaml`), the persisted
file (`FS`), the serializer (`Yaml.dump`, mirroring PyYAML's
`yaml.dump` with its `sort_keys` flag at the level of an order-revealing
token stream) and the parser (`parseVal`), and translate the program's
functions `load_settings`, `save_settings`, `update_and_save`, the
"Add Field" button handler, the prompt string/dict handling, and the
import/export handlers.  Python dictionaries are modelled as ordered
association lists (Python 3.7+ dicts preserve insertion order, and
`yaml.dump(..., sort_keys=False)` serializes them in that order).
An uncaught Python exception is modelled by `Except` with `PyErr`.
-/

mutual

/-- YAML values as produced by `yaml.safe_load` / consumed by `yaml.dump`:
null, booleans, integers, strings, sequences and (ordered) mappings.
Defined mutually with ordered lists and ordered key-value maps so that all
recursions and inductions are plain structural ones. -/
inductive Yaml where
  | null : Yaml
  | bool (b : Bool) : Yaml
  | int (n : Int) : Yaml
  | str (s : String) : Yaml
  | seq (xs : YamlList) : Yaml
  | map (kvs : YamlMap) : Yaml
  deriving DecidableEq

inductive YamlList where
  | nil : YamlList
  | cons (hd : Yaml) (tl : YamlList) : YamlList
  deriving DecidableEq

inductive YamlMap where
  | nil : YamlMap
  | cons (k : String) (v : Yaml) (tl : YamlMap) : YamlMap
  deriving DecidableEq

end

namespace YamlMap

/-- Python `d[k]` / `d.get(k)` on an insertion-ordered dict: first (unique)
binding of `k`. -/
def lookup (k : String) : YamlMap → Option Yaml
  | .nil => none
  | .cons k' v tl => if k = k' then some v else lookup k tl

/-- Python `k in d`. -/
def hasKey (k : String) : YamlMap → Bool
  | .nil => false
  | .cons k' _ tl => k = k' || hasKey k tl

/-- Python `d[k] = v`: replaces the value in place if `k` is present
(keeping its position in insertion order), otherwise appends the new
binding at the end. -/
def setKey (k : String) (v : Yaml) : YamlMap → YamlMap
  | .nil => .cons k v .nil
  | .cons k' v' tl => if k = k' then .cons k' v tl else .cons k' v' (setKey k v tl)

/-- The keys, in insertion order. -/
def keys : YamlMap → List String
  | .nil => []
  | .cons k _ tl => k :: keys tl

/-- Number of bindings of key `k` (a Python dict always has 0 or 1). -/
def countKey (k : String) : YamlMap → Nat
  | .nil => 0
  | .cons k' _ tl => (if k = k' then 1 else 0) + countKey k tl

/-- Number of bindings. -/
def size : YamlMap → Nat
  | .nil => 0
  | .cons _ _ tl => size tl + 1

end YamlMap

namespace Yaml

/-- Python truthiness of a loaded YAML value (`if loaded_settings:` in
`load_settings`): `None`, `False`, `0`, `""`, `[]`, `{}` are falsy. -/
def truthy : Yaml → Bool
  | .null => false
  | .bool b => b
  | .int n => n != 0
  | .str s => s != ""
  | .seq .nil => false
  | .seq (.cons _ _) => true
  | .map .nil => false
  | .map (.cons _ _ _) => true

/-- Python `isinstance(v, dict)`. -/
def isMap : Yaml → Bool
  | .map _ => true
  | _ => false

end Yaml

/-- A Python exception of the translated code paths. -/
inductive PyErr where
  | typeError
  | attributeError
  | nameError
  | yamlError
  deriving DecidableEq

instance {e a : Type} [DecidableEq e] [DecidableEq a] : DecidableEq (Except e a) := fun x y =>
  match x, y with
  | .error u, .error u' =>
      if h : u = u' then isTrue (by subst h; rfl) else isFalse (by simp [h])
  | .error _, .ok _ => isFalse (by simp)
  | .ok _, .error _ => isFalse (by simp)
  | .ok v, .ok v' =>
      if h : v = v' then isTrue (by subst h; rfl) else isFalse (by simp [h])

/-- Tokens of the serialized YAML text.  A byte sequence produced by
`yaml.dump` is modelled as the sequence of tokens it is built from: this
keeps the serializer invertible and order-revealing (two dumps are
byte-identical iff their token sequences are equal) without committing to
PyYAML's concrete whitespace. -/
inductive Tok where
  | null : Tok
  | bool (b : Bool) : Tok
  | int (n : Int) : Tok
  | str (s : String) : Tok
  | seqL : Tok
  | seqR : Tok
  | mapL : Tok
  | mapR : Tok
  | key (k : String) : Tok
  deriving DecidableEq

/-- Codepoint-lexicographic `a <= b` on character lists: how Python
compares strings (and what `sorted` on dict keys uses). -/
def charListLe : List Char → List Char → Bool
  | [], _ => true
  | _ :: _, [] => false
  | a :: as, b :: bs => if a < b then true else if b < a then false else charListLe as bs

/-- Codepoint-lexicographic `a <= b` on strings (Python string order). -/
def strLe (a b : String) : Bool := charListLe a.data b.data

/-- Python `s.split(sep)` for a one-character separator, accumulator form. -/
def splitCharAux (sep : Char) (acc : List Char) : List Char → List String
  | [] => [String.mk acc.reverse]
  | c :: cs =>
      if c = sep then String.mk acc.reverse :: splitCharAux sep [] cs
      else splitCharAux sep (c :: acc) cs

/-- Python `s.split(sep)` for a one-character separator: always returns a
nonempty list (`"".split(".") == [""]`). -/
def splitChar (sep : Char) (s : String) : List String := splitCharAux sep [] s.data

/-- Truthiness of Python `s.strip()`: the string has a non-whitespace
character. -/
def strippedTruthy (s : String) : Bool := s.data.any (fun c => !c.isWhitespace)

namespace YamlMap

/-- Insert a binding into a key-sorted map, before the first strictly
larger key (stable, like Python's `sorted`). -/
def insertEntry (k : String) (v : Yaml) : YamlMap → YamlMap
  | .nil => .cons k v .nil
  | .cons k' v' tl =>
      if strLe k k' then .cons k v (.cons k' v' tl) else .cons k' v' (insertEntry k v tl)

/-- Stable insertion sort of a map's bindings by key: what
`yaml.dump(..., sort_keys=True)` (the default) does to every mapping it
serializes. -/
def sortEntries : YamlMap → YamlMap
  | .nil => .nil
  | .cons k v tl => insertEntry k v (sortEntries tl)

/-- The map's keys appear in nondecreasing (Python string) order. -/
def keysSorted : YamlMap → Bool
  | .nil => true
  | .cons _ _ .nil => true
  | .cons k _ (.cons k' v' tl) => strLe k k' && keysSorted (.cons k' v' tl)

end YamlMap

mutual

/-- Recursively sort every mapping's bindings by key: `yaml.dump` with
`sort_keys=True` serializes exactly the tree transformed this way. -/
def Yaml.sortAll : Yaml → Yaml
  | .null => .null
  | .bool b => .bool b
  | .int n => .int n
  | .str s => .str s
  | .seq xs => .seq (YamlList.sortAllItems xs)
  | .map kvs => .map (YamlMap.sortAllEntries kvs).sortEntries

/-- `Yaml.sortAll` mapped over a sequence. -/
def YamlList.sortAllItems : YamlList → YamlList
  | .nil => .nil
  | .cons hd tl => .cons hd.sortAll (YamlList.sortAllItems tl)

/-- `Yaml.sortAll` mapped over a mapping's values. -/
def YamlMap.sortAllEntries : YamlMap → YamlMap
  | .nil => .nil
  | .cons k v tl => .cons k v.sortAll (YamlMap.sortAllEntries tl)

end

mutual

/-- Every mapping anywhere in the value already has its keys in sorted
order. -/
def Yaml.allSorted : Yaml → Bool
  | .null => true
  | .bool _ => true
  | .int _ => true
  | .str _ => true
  | .seq xs => YamlList.allSortedItems xs
  | .map kvs => kvs.keysSorted && YamlMap.allSortedEntries kvs

/-- `Yaml.allSorted` over the items of a sequence. -/
def YamlList.allSortedItems : YamlList → Bool
  | .nil => true
  | .cons hd tl => hd.allSorted && YamlList.allSortedItems tl

/-- `Yaml.allSorted` over the values of a mapping. -/
def YamlMap.allSortedEntries : YamlMap → Bool
  | .nil => true
  | .cons _ v tl => v.allSorted && YamlMap.allSortedEntries tl

end

mutual

/-- Serialize a value to its token sequence, mappings in their stored
(insertion) order — the behaviour of `yaml.dump(v, sort_keys=False)`. -/
def Yaml.dump : Yaml → List Tok
  | .null => [Tok.null]
  | .bool b => [Tok.bool b]
  | .int n => [Tok.int n]
  | .str s => [Tok.str s]
  | .seq xs => Tok.seqL :: (YamlList.dumpItems xs ++ [Tok.seqR])
  | .map kvs => Tok.mapL :: (YamlMap.dumpEntries kvs ++ [Tok.mapR])

/-- Serialize the items of a sequence, in order. -/
def YamlList.dumpItems : YamlList → List Tok
  | .nil => []
  | .cons hd tl => Yaml.dump hd ++ YamlList.dumpItems tl

/-- Serialize the bindings of a mapping, in order. -/
def YamlMap.dumpEntries : YamlMap → List Tok
  | .nil => []
  | .cons k v tl => Tok.key k :: (Yaml.dump v ++ YamlMap.dumpEntries tl)

end

/-- `yaml.dump(v, sort_keys=sortKeys)` as a token sequence.  PyYAML's
default is `sort_keys=True` (every mapping alphabetized); the program's
`save_settings` passes `sort_keys=False` (insertion order kept). -/
def pyDump (sortKeys : Bool) (v : Yaml) : List Tok :=
  if sortKeys then v.sortAll.dump else v.dump

mutual

/-- Parse one value from the front of a token stream, returning the value
and the strictly shorter remainder. -/
def parseVal : (ts : List Tok) → Option (Yaml × { rest : List Tok // rest.length < ts.length })
  | [] => none
  | Tok.null :: ts => some (.null, ⟨ts, by simp⟩)
  | Tok.bool b :: ts => some (.bool b, ⟨ts, by simp⟩)
  | Tok.int n :: ts => some (.int n, ⟨ts, by simp⟩)
  | Tok.str s :: ts => some (.str s, ⟨ts, by simp⟩)
  | Tok.seqL :: ts =>
      match parseItems ts with
      | none => none
      | some (xs, ⟨rest, h⟩) =>
          some (.seq xs, ⟨rest, by simp only [List.length_cons]; omega⟩)
  | Tok.mapL :: ts =>
      match parseEntries ts with
      | none => none
      | some (kvs, ⟨rest, h⟩) =>
          some (.map kvs, ⟨rest, by simp only [List.length_cons]; omega⟩)
  | Tok.seqR :: _ => none
  | Tok.mapR :: _ => none
  | Tok.key _ :: _ => none
termination_by ts => (ts.length, 0)

/-- Parse sequence items up to the closing `seqR`. -/
def parseItems : (ts : List Tok) → Option (YamlList × { rest : List Tok // rest.length < ts.length })
  | [] => none
  | Tok.seqR :: ts => some (.nil, ⟨ts, by simp⟩)
  | t :: ts =>
      match parseVal (t :: ts) with
      | none => none
      | some (v, ⟨rest, h⟩) =>
          match parseItems rest with
          | none => none
          | some (vs, ⟨rest', h'⟩) =>
              some (.cons v vs, ⟨rest', by omega⟩)
termination_by ts => (ts.length, 1)

/-- Parse mapping bindings up to the closing `mapR`. -/
def parseEntries : (ts : List Tok) → Option (YamlMap × { rest : List Tok // rest.length < ts.length })
  | [] => none
  | Tok.mapR :: ts => some (.nil, ⟨ts, by simp⟩)
  | Tok.key k :: ts =>
      match parseVal ts with
      | none => none
      | some (v, ⟨rest, h⟩) =>
          match parseEntries rest with
          | none => none
          | some (kvs, ⟨rest', h'⟩) =>
              some (.cons k v kvs, ⟨rest', by simp only [List.length_cons]; omega⟩)
  | _ :: _ => none
termination_by ts => (ts.length, 1)

end

/-- `parseVal` with the length certificate erased. -/
def parse (ts : List Tok) : Option (Yaml × List Tok) :=
  (parseVal ts).map (fun p => (p.1, p.2.val))

/-- `parseItems` with the length certificate erased. -/
def parseItemsW (ts : List Tok) : Option (YamlList × List Tok) :=
  (parseItems ts).map (fun p => (p.1, p.2.val))

/-- `parseEntries` with the length certificate erased. -/
def parseEntriesW (ts : List Tok) : Option (YamlMap × List Tok) :=
  (parseEntries ts).map (fun p => (p.1, p.2.val))

/-- Parse a whole document: one value consuming the entire stream. -/
def parseDoc (ts : List Tok) : Option Yaml :=
  match parse ts with
  | some (v, []) => some v
  | _ => none

/-! ## The program: `augmenta.py` translated -/

/-- The `industry` field of the built-in default structure
(`load_settings`, lines 26-30). -/
def industryField : Yaml :=
  .map (.cons "type" (.str "str")
    (.cons "description" (.str "What industry is this organisation or person associated with?")
      (.cons "options" (.seq (.cons (.str "Agriculture, Forestry and Fishing")
        (.cons (.str "Manufacturing") (.cons (.str "Other") .nil)))) .nil)))

/-- The `explanation` field of the built-in default structure
(`load_settings`, lines 31-34). -/
def explanationField : Yaml :=
  .map (.cons "type" (.str "str")
    (.cons "description" (.str "A brief explanation") .nil))

/-- `default_settings` of `load_settings` (lines 10-38), with the source's
top-level key insertion order. -/
def defaultSettings : Yaml :=
  .map (.cons "input_csv" (.str "data/input.csv")
    (.cons "output_csv" (.str "data/output.csv")
      (.cons "model" (.map (.cons "provider" (.str "openai")
          (.cons "name" (.str "gpt-4o-mini") .nil)))
        (.cons "search" (.map (.cons "engine" (.str "google")
            (.cons "results" (.int 10) .nil)))
          (.cons "prompt" (.map (.cons "system" (.str "You are an expert researcher.")
              (.cons "user" (.str "# Instructions\n\nResearch the following entity...") .nil)))
            (.cons "structure" (.map (.cons "industry" industryField
                (.cons "explanation" explanationField .nil)))
              (.cons "examples" (.seq .nil)
                (.cons "logfire" (.bool false) .nil))))))))

/-- The persisted `augmenta.yaml`: absent, or present with a token
content.  (Write failures are not modelled: every modelled `open(...,'w')`
plus `yaml.dump` succeeds.) -/
structure FS where
  file : Option (List Tok)
  deriving DecidableEq

/-- `yaml.safe_load` on raw file/upload content: an empty stream yields
Python `None` (our `.null`), otherwise the single document, or a
`yaml.YAMLError` for malformed content. -/
def pySafeLoad : List Tok → Except PyErr Yaml
  | [] => .ok .null
  | t :: ts =>
      match parseDoc (t :: ts) with
      | some d => .ok d
      | none => .error .yamlError

/-- `load_settings` (lines 8-58): if the file is absent, write the default
document (`yaml.dump(default_settings, file, sort_keys=False)`) and return
it; if present, return the parsed document when it is truthy, the default
when it is falsy, and the default (file untouched) when loading raises. -/
def load_settings (fs : FS) : Yaml × FS :=
  match fs.file with
  | none => (defaultSettings, ⟨some (Yaml.dump defaultSettings)⟩)
  | some ts =>
      match pySafeLoad ts with
      | .ok d => (if d.truthy then d else defaultSettings, fs)
      | .error _ => (defaultSettings, fs)

/-- `save_settings` (lines 61-91): refuse `None`, else write
`yaml.dump(settings, file, sort_keys=False)`, then re-read the file and
report success iff its content is non-empty. -/
def save_settings (settings : Yaml) (fs : FS) : Bool × FS :=
  if settings = Yaml.null then (false, fs)
  else
    let content := Yaml.dump settings
    if content = [] then (false, ⟨some content⟩) else (true, ⟨some content⟩)

/-- The session: the in-memory `st.session_state.settings` and the
persisted file. -/
structure AppState where
  settings : Yaml
  fs : FS
  deriving DecidableEq

/-- The path-navigation loop of `update_and_save` (lines 100-110):
`current = current[k]` for every component but the last, inserting `{}`
for a missing component, then `current[keys[-1]] = value`.  Any non-dict
met along the way raises an uncaught `TypeError` (item assignment or
string/list indexing with a string key), leaving the document unchanged. -/
def setPath (value : Yaml) (k : String) (ks : List String) (cur : Yaml) : Except PyErr Yaml :=
  match ks, cur with
  | [], .map m => .ok (.map (m.setKey k value))
  | [], _ => .error .typeError
  | k' :: ks', .map m =>
      let sub := match m.lookup k with
                 | some v => v
                 | none => Yaml.map .nil
      match setPath value k' ks' sub with
      | .ok sub' => .ok (.map (m.setKey k sub'))
      | .error e => .error e
  | _ :: _, _ => .error .typeError

/-- `update_and_save(key, value)` (lines 99-114): split the dotted key,
write through the path into the in-memory settings, then
`save_settings`.  (`key.split(".")` never returns an empty list, so the
first branch is dead.) -/
def update_and_save (key : String) (value : Yaml) (st : AppState) :
    Except PyErr (Bool × AppState) :=
  match splitChar '.' key with
  | [] => .error .typeError
  | k :: ks =>
      match setPath value k ks st.settings with
      | .error e => .error e
      | .ok doc' =>
          let (ok, fs') := save_settings doc' st.fs
          .ok (ok, ⟨doc', fs'⟩)

/-- A list of strings as a YAML sequence. -/
def strList : List String → YamlList
  | [] => .nil
  | s :: rest => .cons (.str s) (strList rest)

/-- The options list the UI builds (lines 260-265): empty unless the "Add
Options" box is checked, else the non-blank lines of the text area,
unstripped. -/
def optionLines (hasOptions : Bool) (s : String) : List String :=
  if hasOptions then (splitChar '\n' s).filter (fun o => strippedTruthy o) else []

/-- The field entry the Add Field handler stores (lines 274-280):
`{"type": ..., "description": ...}`, with `"options"` appended afterwards
when the filtered options list is non-empty. -/
def fieldEntry (ty desc : String) (opts : List String) : YamlMap :=
  let base : YamlMap := .cons "type" (.str ty) (.cons "description" (.str desc) .nil)
  if opts = [] then base else base.setKey "options" (.seq (strList opts))

/-- The Add Field button handler (lines 270-284), acting on the document
the handler's `saved_settings` denotes: skipped when the field name is
falsy; otherwise ensures a `structure` mapping exists, stores the new
entry under the name (a plain dict assignment: an existing entry is
overwritten in place), and saves.  A non-dict document or a non-dict
`structure` value raises `TypeError`. -/
def addFieldHandler (doc : Yaml) (name ty desc : String) (opts : List String) (fs : FS) :
    Except PyErr (Yaml × FS) :=
  if name = "" then .ok (doc, fs)
  else
    match doc with
    | .map m =>
        let m1 := if m.hasKey "structure" then m else m.setKey "structure" (.map .nil)
        match m1.lookup "structure" with
        | some (.map sm) =>
            let doc' : Yaml :=
              .map (m1.setKey "structure" (.map (sm.setKey name (.map (fieldEntry ty desc opts)))))
            let (_, fs') := save_settings doc' fs
            .ok (doc', fs')
        | some _ => .error .typeError
        | none => .error .typeError
    | _ => .error .typeError

/-- The prompt form handling (lines 197-206): `prompt_settings =
settings.get("prompt", {})`; a bare string becomes
`(system, user) = ("", s)`; a dict is read with `.get("system", "")` and
`.get("user", "")`; any other value has no `.get` and raises
`AttributeError`. -/
def promptView (m : YamlMap) : Except PyErr (Yaml × Yaml) :=
  match (m.lookup "prompt").getD (Yaml.map .nil) with
  | .str s => .ok (.str "", .str s)
  | .map pm => .ok ((pm.lookup "system").getD (.str ""), (pm.lookup "user").getD (.str ""))
  | _ => .error .attributeError

/-- What the Import Configuration handler reports (lines 405-412). -/
inductive ImportOutcome where
  | success
  | saveFailed
  | parseFailed
  deriving DecidableEq

/-- The Import Configuration handler (lines 405-412):
`yaml.safe_load` the upload, then `save_settings` the parsed value;
a load exception is caught and reported with the parser's message.
`st.session_state.settings` is never assigned. -/
def importConfig (raw : List Tok) (st : AppState) : ImportOutcome × AppState :=
  match pySafeLoad raw with
  | .error _ => (.parseFailed, st)
  | .ok d =>
      let (ok, fs') := save_settings d st.fs
      (if ok then .success else .saveFailed, ⟨st.settings, fs'⟩)

/-- The Download Configuration payload (line 397): `yaml.dump(doc)` with
PyYAML's default `sort_keys=True`. -/
def exportConfig (doc : Yaml) : List Tok := pyDump true doc

/-- Every name `augmenta.py` ever binds, at any scope: imports, the three
function definitions, their parameters and locals, and every module-level
assignment or loop target (transcribed from the source). -/
def assignedNames : List String :=
  ["st", "yaml", "os", "json", "deepcopy",
   "load_settings", "save_settings", "update_and_save",
   "settings", "key", "value", "yaml_path", "default_settings", "file",
   "loaded_settings", "e", "content", "keys", "current", "k", "save_result",
   "input_csv", "uploaded_file", "output_csv", "col1", "col2",
   "model_settings", "model_provider", "model_name",
   "search_settings", "search_engine", "search_results",
   "prompt_settings", "system_prompt", "user_prompt", "logfire",
   "structure", "field_name", "field_config", "field_desc",
   "options_str", "new_options", "new_field_name", "new_field_type",
   "new_field_desc", "has_options", "new_field_options", "new_options_str",
   "examples", "i", "example", "input_val", "output", "field_value",
   "new_value", "new_input", "new_output", "field_type",
   "raw_yaml", "parsed_yaml", "uploaded_config", "imported_settings",
   "update_result"]

/-- Python name resolution against an environment of bindings: an unbound
name raises `NameError`. -/
def evalName : List (String × Yaml) → String → Except PyErr Yaml
  | [], _ => .error .nameError
  | (k, v) :: env, n => if n = k then .ok v else evalName env n

/-- Line 232, the first statement of the Output Structure section:
`structure = saved_settings.get("structure", {})`. -/
def outputStructureFirstRead (env : List (String × Yaml)) : Except PyErr Yaml :=
  match evalName env "saved_settings" with
  | .error e => .error e
  | .ok (.map m) => .ok ((m.lookup "structure").getD (.map .nil))
  | .ok _ => .error .attributeError

/-- Line 295, the first statement of the Examples section:
`examples = saved_settings.get("examples", [])`. -/
def examplesFirstRead (env : List (String × Yaml)) : Except PyErr Yaml :=
  match evalName env "saved_settings" with
  | .error e => .error e
  | .ok (.map m) => .ok ((m.lookup "examples").getD (.seq .nil))
  | .ok _ => .error .attributeError

/-- Line 379, the first document access of the Advanced Configuration
section (raw-YAML editor and export/import live below it):
`yaml.dump(saved_settings)`. -/
def advancedFirstRead (env : List (String × Yaml)) : Except PyErr (List Tok) :=
  match evalName env "saved_settings" with
  | .error e => .error e
  | .ok d => .ok (pyDump true d)

/-! ## Validity of a configuration document

Modelled from the spec: the repository has no validation code, so the
notion of a "valid ConfigDocument" below transcribes the data model of the
spec (section 3: top-level keys, field types, enums, the options and
example invariants, the legacy bare-string prompt form). -/

/-- Modelled from the spec: every option is a non-blank string. -/
def optionItemsValid : YamlList → Bool
  | .nil => true
  | .cons (.str s) tl => strippedTruthy s && optionItemsValid tl
  | .cons _ _ => false

/-- Modelled from the spec: the options sequence invariant — non-empty,
all items non-blank strings. -/
def optionsValid : YamlList → Bool
  | .nil => false
  | .cons hd tl => optionItemsValid (.cons hd tl)

/-- Modelled from the spec: a FieldSpec — `type` one of the five kinds,
`description` a string when present, `options` a valid sequence when
present. -/
def FieldSpecValid : Yaml → Bool
  | .map fm =>
      (match fm.lookup "type" with
       | some (.str t) => ["str", "int", "float", "bool", "list"].contains t
       | _ => false)
      && (match fm.lookup "description" with
          | none => true
          | some (.str _) => true
          | some _ => false)
      && (match fm.lookup "options" with
          | none => true
          | some (.seq os) => optionsValid os
          | some _ => false)
  | _ => false

/-- Modelled from the spec: the `structure` mapping — every value a valid
FieldSpec. -/
def structureValid : YamlMap → Bool
  | .nil => true
  | .cons _ v tl => FieldSpecValid v && structureValid tl

/-- Modelled from the spec: an Example — a mapping with a string `input`
and a mapping `output`. -/
def exampleValid : Yaml → Bool
  | .map em =>
      (match em.lookup "input" with | some (.str _) => true | _ => false)
      && (match em.lookup "output" with | some (.map _) => true | _ => false)
  | _ => false

/-- Modelled from the spec: every example valid. -/
def examplesValid : YamlList → Bool
  | .nil => true
  | .cons e tl => exampleValid e && examplesValid tl

/-- Modelled from the spec: the `model` object. -/
def modelValid : Yaml → Bool
  | .map mm =>
      (match mm.lookup "provider" with
       | none => true
       | some (.str p) => ["openai", "google", "azure", "anthropic"].contains p
       | some _ => false)
      && (match mm.lookup "name" with
          | none => true
          | some (.str _) => true
          | some _ => false)
  | _ => false

/-- Modelled from the spec: the `search` object (`results` an integer in
1..100). -/
def searchValid : Yaml → Bool
  | .map sm =>
      (match sm.lookup "engine" with
       | none => true
       | some (.str e) => ["google", "bing", "duckduckgo", "brave"].contains e
       | some _ => false)
      && (match sm.lookup "results" with
          | none => true
          | some (.int n) => decide (1 ≤ n) && decide (n ≤ 100)
          | some _ => false)
  | _ => false

/-- Modelled from the spec: the `prompt` object, or its legacy bare-string
form. -/
def promptValid : Yaml → Bool
  | .str _ => true
  | .map pm =>
      (match pm.lookup "system" with
       | none => true
       | some (.str _) => true
       | some _ => false)
      && (match pm.lookup "user" with
          | none => true
          | some (.str _) => true
          | some _ => false)
  | _ => false

/-- Modelled from the spec: a valid ConfigDocument — a mapping whose keys
are among the eight top-level keys of the data model, each present key
well-typed.  All keys are optional. -/
def ConfigValid : Yaml → Bool
  | .map m =>
      (m.keys.all (fun k =>
        ["input_csv", "output_csv", "model", "search", "prompt",
         "structure", "examples", "logfire"].contains k))
      && (match m.lookup "input_csv" with
          | none => true | some (.str _) => true | some _ => false)
      && (match m.lookup "output_csv" with
          | none => true | some (.str _) => true | some _ => false)
      && (match m.lookup "model" with | none => true | some v => modelValid v)
      && (match m.lookup "search" with | none => true | some v => searchValid v)
      && (match m.lookup "prompt" with | none => true | some v => promptValid v)
      && (match m.lookup "structure" with
          | none => true | some (.map sm) => structureValid sm | some _ => false)
      && (match m.lookup "examples" with
          | none => true | some (.seq es) => examplesValid es | some _ => false)
      && (match m.lookup "logfire" with
          | none => true | some (.bool _) => true | some _ => false)
  | _ => false

/-! ## Concrete documents used by the claims -/

/-- A structure mapping holding one `x` field of type `str`, description
`d`. -/
def c1Struct : YamlMap :=
  .cons "x" (.map (.cons "type" (.str "str") (.cons "description" (.str "d") .nil))) .nil

/-- A document whose `structure` already contains an `x` field. -/
def c1Doc : YamlMap := .cons "structure" (.map c1Struct) .nil

/-- A document with an empty `structure` mapping. -/
def c4Doc : YamlMap := .cons "structure" (.map .nil) .nil

/-- A small configuration document distinct from the default one. -/
def c2Doc : Yaml := .map (.cons "input_csv" (.str "a.csv") .nil)

/-- A document whose `prompt` is the legacy bare string. -/
def c10Doc : YamlMap := .cons "prompt" (.str "hello") .nil

/-- A small `model` mapping. -/
def c5Model : YamlMap :=
  .cons "provider" (.str "openai") (.cons "name" (.str "gpt-4o-mini") .nil)

/-- A document with a `model` mapping and a second top-level key. -/
def c5Doc : YamlMap := .cons "model" (.map c5Model) (.cons "logfire" (.bool false) .nil)

/-! ## Basic lemmas -/

theorem splitCharAux_ne_nil (sep : Char) (acc : List Char) (cs : List Char) :
    splitCharAux sep acc cs ≠ [] := by
  induction cs generalizing acc with
  | nil => simp [splitCharAux]
  | cons c cs ih =>
      by_cases h : c = sep
      · simp [splitCharAux, h]
      · simpa [splitCharAux, h] using ih (c :: acc)

theorem YamlMap.sortEntries_of_sorted :
    ∀ (m : YamlMap), m.keysSorted = true → m.sortEntries = m
  | .nil, _ => rfl
  | .cons k v tl, hm => by
      have htl : tl.keysSorted = true := by
        cases tl with
        | nil => rfl
        | cons k' v' tl' =>
            simp only [YamlMap.keysSorted, Bool.and_eq_true] at hm
            exact hm.2
      rw [YamlMap.sortEntries, YamlMap.sortEntries_of_sorted tl htl]
      cases tl with
      | nil => rfl
      | cons k' v' tl' =>
          simp only [YamlMap.keysSorted, Bool.and_eq_true] at hm
          rw [YamlMap.insertEntry, if_pos hm.1]

mutual

/-- Recursive key-sorting is the identity on trees whose mappings are
already key-sorted. -/
theorem Yaml.sortAll_of_allSorted : ∀ (v : Yaml), v.allSorted = true → v.sortAll = v
  | .null, _ => rfl
  | .bool b, _ => rfl
  | .int n, _ => rfl
  | .str s, _ => rfl
  | .seq xs, h => by
      rw [Yaml.sortAll, YamlList.sortAllItems_of_allSorted xs h]
  | .map kvs, h => by
      rw [Yaml.allSorted, Bool.and_eq_true] at h
      rw [Yaml.sortAll, YamlMap.sortAllEntries_of_allSorted kvs h.2,
        YamlMap.sortEntries_of_sorted kvs h.1]

theorem YamlList.sortAllItems_of_allSorted :
    ∀ (xs : YamlList), YamlList.allSortedItems xs = true → YamlList.sortAllItems xs = xs
  | .nil, _ => rfl
  | .cons hd tl, h => by
      rw [YamlList.allSortedItems, Bool.and_eq_true] at h
      rw [YamlList.sortAllItems, Yaml.sortAll_of_allSorted hd h.1,
        YamlList.sortAllItems_of_allSorted tl h.2]

theorem YamlMap.sortAllEntries_of_allSorted :
    ∀ (kvs : YamlMap), YamlMap.allSortedEntries kvs = true → YamlMap.sortAllEntries kvs = kvs
  | .nil, _ => rfl
  | .cons k v tl, h => by
      rw [YamlMap.allSortedEntries, Bool.and_eq_true] at h
      rw [YamlMap.sortAllEntries, Yaml.sortAll_of_allSorted v h.1,
        YamlMap.sortAllEntries_of_allSorted tl h.2]

end

theorem Yaml.dump_head (v : Yaml) :
    ∃ t ts, Yaml.dump v = t :: ts ∧ t ≠ Tok.seqR := by
  cases v <;> simp [Yaml.dump]

theorem parse_seqL (ts : List Tok) :
    parse (Tok.seqL :: ts) = Option.map (fun p => (Yaml.seq p.1, p.2)) (parseItemsW ts) := by
  simp only [parse, parseVal, parseItemsW]
  cases hE : parseItems ts with
  | none => simp
  | some a => rcases a with ⟨vs, r, hr⟩; simp

theorem parse_mapL (ts : List Tok) :
    parse (Tok.mapL :: ts) = Option.map (fun p => (Yaml.map p.1, p.2)) (parseEntriesW ts) := by
  simp only [parse, parseVal, parseEntriesW]
  cases hE : parseEntries ts with
  | none => simp
  | some a => rcases a with ⟨kvs, r, hr⟩; simp

theorem parseVal_of_parse (ts ts' : List Tok) (v : Yaml) (hv : parse ts = some (v, ts')) :
    ∃ h, parseVal ts = some (v, ⟨ts', h⟩) := by
  simp only [parse, Option.map_eq_some'] at hv
  obtain ⟨⟨v0, r0, hlt⟩, hp, heq⟩ := hv
  simp only [Prod.mk.injEq] at heq
  obtain ⟨rfl, rfl⟩ := heq
  exact ⟨hlt, hp⟩

theorem parseItemsW_step (t : Tok) (ts0 ts' : List Tok) (v : Yaml)
    (h1 : t ≠ Tok.seqR) (hv : parse (t :: ts0) = some (v, ts')) :
    parseItemsW (t :: ts0) =
      Option.map (fun p => (YamlList.cons v p.1, p.2)) (parseItemsW ts') := by
  obtain ⟨hlt, hp⟩ := parseVal_of_parse _ _ _ hv
  rcases t with _ | b | n | s | _ | _ | _ | _ | k
  case seqR => exact absurd rfl h1
  all_goals
    simp only [parseItemsW, parseItems, hp]
    cases hE : parseItems ts' with
    | none => simp [hE]
    | some a => rcases a with ⟨vs, r, hr⟩; simp [hE]

theorem parseEntriesW_step (k : String) (ts0 ts' : List Tok) (v : Yaml)
    (hv : parse ts0 = some (v, ts')) :
    parseEntriesW (Tok.key k :: ts0) =
      Option.map (fun p => (YamlMap.cons k v p.1, p.2)) (parseEntriesW ts') := by
  obtain ⟨hlt, hp⟩ := parseVal_of_parse _ _ _ hv
  simp only [parseEntriesW, parseEntries, hp]
  cases hE : parseEntries ts' with
  | none => simp [hE]
  | some a => rcases a with ⟨kvs, r, hr⟩; simp [hE]

mutual

/-- Left inverse: parsing a dumped value consumes exactly its tokens and
returns the value. -/
theorem parse_dump : ∀ (v : Yaml) (rest : List Tok),
    parse (Yaml.dump v ++ rest) = some (v, rest)
  | .null, rest => by simp [Yaml.dump, parse, parseVal]
  | .bool b, rest => by simp [Yaml.dump, parse, parseVal]
  | .int n, rest => by simp [Yaml.dump, parse, parseVal]
  | .str s, rest => by simp [Yaml.dump, parse, parseVal]
  | .seq xs, rest => by
      have hitems := parseItemsW_dump xs rest
      rw [Yaml.dump, List.cons_append, List.append_assoc, List.singleton_append,
        parse_seqL, hitems]
      rfl
  | .map kvs, rest => by
      have hentries := parseEntriesW_dump kvs rest
      rw [Yaml.dump, List.cons_append, List.append_assoc, List.singleton_append,
        parse_mapL, hentries]
      rfl

theorem parseItemsW_dump : ∀ (xs : YamlList) (rest : List Tok),
    parseItemsW (YamlList.dumpItems xs ++ (Tok.seqR :: rest)) = some (xs, rest)
  | .nil, rest => by simp [YamlList.dumpItems, parseItemsW, parseItems]
  | .cons hd tl, rest => by
      have hv := parse_dump hd (YamlList.dumpItems tl ++ (Tok.seqR :: rest))
      have htl := parseItemsW_dump tl rest
      obtain ⟨t, ts1, hdump, hne⟩ := Yaml.dump_head hd
      rw [hdump, List.cons_append] at hv
      rw [YamlList.dumpItems, List.append_assoc, hdump, List.cons_append,
        parseItemsW_step t _ _ hd hne hv, htl]
      rfl

theorem parseEntriesW_dump : ∀ (kvs : YamlMap) (rest : List Tok),
    parseEntriesW (YamlMap.dumpEntries kvs ++ (Tok.mapR :: rest)) = some (kvs, rest)
  | .nil, rest => by simp [YamlMap.dumpEntries, parseEntriesW, parseEntries]
  | .cons k v tl, rest => by
      have hv := parse_dump v (YamlMap.dumpEntries tl ++ (Tok.mapR :: rest))
      have htl := parseEntriesW_dump tl rest
      rw [YamlMap.dumpEntries, List.cons_append, List.append_assoc,
        parseEntriesW_step k _ _ v hv, htl]
      rfl

end

/-- Whole-document round-trip through the insertion-order serializer. -/
theorem parseDoc_dump (v : Yaml) : parseDoc (Yaml.dump v) = some v := by
  have h := parse_dump v []
  rw [List.append_nil] at h
  rw [parseDoc, h]

theorem evalName_unbound (n : String) :
    ∀ (env : List (String × Yaml)), (∀ p ∈ env, p.1 ≠ n) →
      evalName env n = .error .nameError := by
  intro env h
  induction env with
  | nil => rfl
  | cons p env ih =>
      obtain ⟨k, v⟩ := p
      have hk : k ≠ n := h (k, v) (List.mem_cons_self _ _)
      rw [evalName, if_neg (fun he => hk he.symm)]
      exact ih (fun q hq => h q (List.mem_cons_of_mem _ hq))

theorem YamlMap.lookup_setKey_self (k : String) (v : Yaml) :
    ∀ (m : YamlMap), (m.setKey k v).lookup k = some v
  | .nil => by simp [YamlMap.setKey, YamlMap.lookup]
  | .cons k' v' tl => by
      by_cases h : k = k'
      · simp [YamlMap.setKey, YamlMap.lookup, h]
      · simp [YamlMap.setKey, YamlMap.lookup, h, YamlMap.lookup_setKey_self k v tl]

theorem YamlMap.lookup_setKey_ne (k k2 : String) (v : Yaml) (hne : k2 ≠ k) :
    ∀ (m : YamlMap), (m.setKey k v).lookup k2 = m.lookup k2
  | .nil => by simp [YamlMap.setKey, YamlMap.lookup, hne]
  | .cons k' v' tl => by
      by_cases h : k = k'
      · subst h
        simp [YamlMap.setKey, YamlMap.lookup, hne]
      · by_cases h2 : k2 = k'
        · simp [YamlMap.setKey, YamlMap.lookup, h, h2]
        · simp [YamlMap.setKey, YamlMap.lookup, h, h2,
            YamlMap.lookup_setKey_ne k k2 v hne tl]

theorem YamlMap.hasKey_of_lookup (k : String) (v : Yaml) :
    ∀ (m : YamlMap), m.lookup k = some v → m.hasKey k = true
  | .nil => by simp [YamlMap.lookup]
  | .cons k' v' tl => by
      by_cases h : k = k'
      · simp [YamlMap.lookup, YamlMap.hasKey, h]
      · simp only [YamlMap.lookup, YamlMap.hasKey, h, if_false, Bool.or_eq_true,
          decide_eq_true_eq, false_or]
        exact YamlMap.hasKey_of_lookup k v tl

theorem YamlMap.hasKey_of_countKey_pos (k : String) :
    ∀ (m : YamlMap), 0 < m.countKey k → m.hasKey k = true
  | .nil => by simp [YamlMap.countKey]
  | .cons k' v' tl => by
      by_cases h : k = k'
      · simp [YamlMap.hasKey, h]
      · simp only [YamlMap.countKey, YamlMap.hasKey, h, if_false, Nat.zero_add,
          Bool.or_eq_true, decide_eq_true_eq, false_or]
        exact YamlMap.hasKey_of_countKey_pos k tl

theorem YamlMap.countKey_setKey (k : String) (v : Yaml) :
    ∀ (m : YamlMap), m.hasKey k = true → (m.setKey k v).countKey k = m.countKey k
  | .nil => by simp [YamlMap.hasKey]
  | .cons k' v' tl => by
      intro hmem
      by_cases h : k = k'
      · simp [YamlMap.setKey, YamlMap.countKey, h]
      · simp only [YamlMap.hasKey, Bool.or_eq_true, decide_eq_true_eq] at hmem
        rcases hmem with hmem | hmem
        · exact absurd hmem h
        · simp [YamlMap.setKey, YamlMap.countKey, h,
            YamlMap.countKey_setKey k v tl hmem]

theorem YamlMap.keys_setKey (k : String) (v : Yaml) :
    ∀ (m : YamlMap), m.hasKey k = true → (m.setKey k v).keys = m.keys
  | .nil => by simp [YamlMap.hasKey]
  | .cons k' v' tl => by
      intro hmem
      by_cases h : k = k'
      · simp [YamlMap.setKey, YamlMap.keys, h]
      · simp only [YamlMap.hasKey, Bool.or_eq_true, decide_eq_true_eq] at hmem
        rcases hmem with hmem | hmem
        · exact absurd hmem h
        · simp [YamlMap.setKey, YamlMap.keys, h, YamlMap.keys_setKey k v tl hmem]

theorem Yaml.dump_ne_nil (v : Yaml) : Yaml.dump v ≠ [] := by
  obtain ⟨t, ts, hdump, -⟩ := Yaml.dump_head v
  simp [hdump]

theorem Yaml.ne_null_of_truthy (d : Yaml) (h : d.truthy = true) : d ≠ Yaml.null := by
  intro he
  subst he
  simp [Yaml.truthy] at h

/-- A non-`None` document always saves successfully: the dump is written
and the re-read verification sees non-empty content. -/
theorem save_settings_ok (s : Yaml) (fs : FS) (h : s ≠ Yaml.null) :
    save_settings s fs = (true, ⟨some (Yaml.dump s)⟩) := by
  rw [save_settings, if_neg h, if_neg (Yaml.dump_ne_nil s)]

/-- Loading a dumped document parses it back exactly. -/
theorem pySafeLoad_dump (d : Yaml) : pySafeLoad (Yaml.dump d) = .ok d := by
  obtain ⟨t, ts, hdump, -⟩ := Yaml.dump_head d
  rw [hdump, pySafeLoad, ← hdump, parseDoc_dump]

/-- Navigating into any non-dict value raises `TypeError`, whatever the
remaining path. -/
theorem setPath_nonmap (value : Yaml) (k : String) (ks : List String) (cur : Yaml)
    (h : cur.isMap = false) : setPath value k ks cur = .error .typeError := by
  cases ks <;> cases cur <;> simp_all [setPath, Yaml.isMap]

/-- The Add Field handler on a dict document with a dict `structure` and a
truthy field name: stores the entry and saves the updated document. -/
theorem addFieldHandler_ok (m sm : YamlMap) (name ty desc : String)
    (opts : List String) (fs : FS)
    (hname : name ≠ "") (hs : m.lookup "structure" = some (.map sm)) :
    addFieldHandler (.map m) name ty desc opts fs =
      .ok (.map (m.setKey "structure" (.map (sm.setKey name (.map (fieldEntry ty desc opts))))),
        ⟨some (Yaml.dump (.map (m.setKey "structure"
          (.map (sm.setKey name (.map (fieldEntry ty desc opts)))))))⟩) := by
  have hhas := YamlMap.hasKey_of_lookup "structure" _ m hs
  rw [addFieldHandler, if_neg hname]
  simp only [hhas, if_true, hs]
  rw [save_settings_ok _ _ (by simp)]

/-! ## The claims -/

/-- C1, as stated, is false: on a document whose `structure` already
contains a field `x`, the Add Field handler does not fail with any
DuplicateField error — at the concrete input below it succeeds,
overwrites `x`'s FieldSpec (the description changes from `d` to `d2`) and
saves the updated document to the file. -/
theorem claimC1_counterexample :
    addFieldHandler (.map c1Doc) "x" "str" "d2" [] ⟨none⟩ =
      .ok (.map (.cons "structure" (.map (.cons "x"
          (.map (.cons "type" (.str "str") (.cons "description" (.str "d2") .nil))) .nil)) .nil),
        ⟨some (Yaml.dump (.map (.cons "structure" (.map (.cons "x"
          (.map (.cons "type" (.str "str") (.cons "description" (.str "d2") .nil))) .nil)) .nil)))⟩)
    ∧ YamlMap.lookup "x" (.cons "x"
          (.map (.cons "type" (.str "str") (.cons "description" (.str "d2") .nil))) .nil)
        ≠ YamlMap.lookup "x" c1Struct := by
  decide

/-- C1 amended: for every document whose `structure` mapping already
contains exactly one field named `name`, the Add Field handler (with a
truthy name) succeeds, overwriting that field's FieldSpec in place with
the new entry and saving; the document still contains exactly one field
named `name` (at its original position, the key list is unchanged), but
it is bound to the new FieldSpec, not the original one. -/
theorem claimC1_amended (m sm : YamlMap) (name ty desc : String) (opts : List String) (fs : FS)
    (hname : name ≠ "") (hs : m.lookup "structure" = some (.map sm))
    (hone : sm.countKey name = 1) :
    addFieldHandler (.map m) name ty desc opts fs =
      .ok (.map (m.setKey "structure" (.map (sm.setKey name (.map (fieldEntry ty desc opts))))),
        ⟨some (Yaml.dump (.map (m.setKey "structure"
          (.map (sm.setKey name (.map (fieldEntry ty desc opts)))))))⟩)
    ∧ (sm.setKey name (.map (fieldEntry ty desc opts))).countKey name = 1
    ∧ (sm.setKey name (.map (fieldEntry ty desc opts))).lookup name
        = some (.map (fieldEntry ty desc opts))
    ∧ (sm.setKey name (.map (fieldEntry ty desc opts))).keys = sm.keys := by
  have hhas : sm.hasKey name = true := YamlMap.hasKey_of_countKey_pos name sm (by omega)
  refine ⟨addFieldHandler_ok m sm name ty desc opts fs hname hs, ?_, ?_, ?_⟩
  · rw [YamlMap.countKey_setKey name _ sm hhas, hone]
  · exact YamlMap.lookup_setKey_self name _ sm
  · exact YamlMap.keys_setKey name _ sm hhas

/-- Witness for the amended C1 at a concrete duplicate insertion. -/
theorem claimC1_amended_witness :
    addFieldHandler (.map c1Doc) "x" "int" "dd" [] ⟨none⟩ =
      .ok (.map (c1Doc.setKey "structure"
            (.map (c1Struct.setKey "x" (.map (fieldEntry "int" "dd" []))))),
        ⟨some (Yaml.dump (.map (c1Doc.setKey "structure"
          (.map (c1Struct.setKey "x" (.map (fieldEntry "int" "dd" [])))))))⟩)
    ∧ (c1Struct.setKey "x" (.map (fieldEntry "int" "dd" []))).countKey "x" = 1
    ∧ (c1Struct.setKey "x" (.map (fieldEntry "int" "dd" []))).lookup "x"
        = some (.map (fieldEntry "int" "dd" []))
    ∧ (c1Struct.setKey "x" (.map (fieldEntry "int" "dd" []))).keys = c1Struct.keys := by
  have h := claimC1_amended c1Doc c1Struct "x" "int" "dd" [] ⟨none⟩
    (by decide) (by decide) (by decide)
  exact h

/-- C4, as stated, is false: `add_field("y", {type:"int", options:["a"]})`
does not fail with any InvalidFieldSpec error — at the concrete input
below the handler succeeds, stores the `options` list on the non-`str`
field, changes the document and saves it. -/
theorem claimC4_counterexample :
    addFieldHandler (.map c4Doc) "y" "int" "d" ["a"] ⟨none⟩ =
      .ok (.map (.cons "structure" (.map (.cons "y"
          (.map (.cons "type" (.str "int") (.cons "description" (.str "d")
            (.cons "options" (.seq (.cons (.str "a") .nil)) .nil)))) .nil)) .nil),
        ⟨some (Yaml.dump (.map (.cons "structure" (.map (.cons "y"
          (.map (.cons "type" (.str "int") (.cons "description" (.str "d")
            (.cons "options" (.seq (.cons (.str "a") .nil)) .nil)))) .nil)) .nil)))⟩)
    ∧ Yaml.map (.cons "structure" (.map (.cons "y"
          (.map (.cons "type" (.str "int") (.cons "description" (.str "d")
            (.cons "options" (.seq (.cons (.str "a") .nil)) .nil)))) .nil)) .nil)
        ≠ Yaml.map c4Doc := by
  decide

/-- C4 amended: the Add Field handler performs no FieldSpec validation at
all.  With a truthy name and a dict `structure` it always succeeds and
saves, whatever the type tag: a non-empty options list is attached as
`options` regardless of the field type, while an empty options list (in
particular the blank-only text the UI filters to nothing) just omits the
`options` key rather than failing. -/
theorem claimC4_amended (m sm : YamlMap) (name ty desc : String) (opts : List String) (fs : FS)
    (hname : name ≠ "") (hs : m.lookup "structure" = some (.map sm)) :
    addFieldHandler (.map m) name ty desc opts fs =
      .ok (.map (m.setKey "structure" (.map (sm.setKey name (.map (fieldEntry ty desc opts))))),
        ⟨some (Yaml.dump (.map (m.setKey "structure"
          (.map (sm.setKey name (.map (fieldEntry ty desc opts)))))))⟩)
    ∧ (opts ≠ [] → (fieldEntry ty desc opts).lookup "options" = some (.seq (strList opts)))
    ∧ (opts = [] → (fieldEntry ty desc opts).hasKey "options" = false)
    ∧ (∀ s, (splitChar '\n' s).all (fun o => !strippedTruthy o) = true →
        optionLines true s = []) := by
  refine ⟨addFieldHandler_ok m sm name ty desc opts fs hname hs, ?_, ?_, ?_⟩
  · intro h
    simp only [fieldEntry, if_neg h]
    exact YamlMap.lookup_setKey_self _ _ _
  · intro h
    simp only [fieldEntry, if_pos h]
    rfl
  · intro s h
    simp only [List.all_eq_true, Bool.not_eq_true'] at h
    simp only [optionLines, if_pos rfl]
    exact List.filter_eq_nil_iff.mpr (fun o ho => by simp [h o ho])

/-- Witness for the amended C4 at the concrete invalid-spec input of the
claim. -/
theorem claimC4_amended_witness :
    addFieldHandler (.map c4Doc) "y" "int" "d" ["a"] ⟨none⟩ =
      .ok (.map (c4Doc.setKey "structure"
            (.map (YamlMap.nil.setKey "y" (.map (fieldEntry "int" "d" ["a"]))))),
        ⟨some (Yaml.dump (.map (c4Doc.setKey "structure"
          (.map (YamlMap.nil.setKey "y" (.map (fieldEntry "int" "d" ["a"])))))))⟩)
    ∧ (fieldEntry "int" "d" ["a"]).lookup "options" = some (.seq (strList ["a"]))
    ∧ (fieldEntry "int" "d" []).hasKey "options" = false
    ∧ optionLines true "  \n\n " = [] := by
  have h := claimC4_amended c4Doc .nil "y" "int" "d" ["a"] ⟨none⟩ (by decide) (by decide)
  have h0 := claimC4_amended c4Doc .nil "y" "int" "d" [] ⟨none⟩ (by decide) (by decide)
  exact ⟨h.1, h.2.1 (by decide), h0.2.2.1 rfl, h.2.2.2 "  \n\n " (by decide)⟩

/-- C6: `load_settings` on a missing file builds the literal default
document, persists it at once (as its `sort_keys=False` dump) and returns
it; a second load then returns that same document with the file unchanged.
On a file that parses to an empty or null document it returns the default
without touching the file. -/
theorem claimC6 :
    load_settings ⟨none⟩ = (defaultSettings, ⟨some (Yaml.dump defaultSettings)⟩)
    ∧ load_settings ⟨some (Yaml.dump defaultSettings)⟩ =
        (defaultSettings, ⟨some (Yaml.dump defaultSettings)⟩)
    ∧ load_settings ⟨some [Tok.null]⟩ = (defaultSettings, ⟨some [Tok.null]⟩)
    ∧ load_settings ⟨some []⟩ = (defaultSettings, ⟨some []⟩) := by
  refine ⟨rfl, ?_, ?_, rfl⟩
  · rw [load_settings]
    simp only [pySafeLoad_dump, ite_self]
  · have h : pySafeLoad [Tok.null] = .ok Yaml.null := pySafeLoad_dump Yaml.null
    rw [load_settings]
    simp only [h]
    rfl

/-- C8: a document whose `prompt` field is a bare string `s` is exposed by
the prompt-form handling as system template `""` and user template `s`. -/
theorem claimC8 (m : YamlMap) (s : String) (h : m.lookup "prompt" = some (.str s)) :
    promptView m = .ok (.str "", .str s) := by
  rw [promptView, h]
  rfl

/-- Witness for C8 on the legacy document `{prompt: "hello"}`. -/
theorem claimC8_witness : promptView c10Doc = .ok (.str "", .str "hello") :=
  claimC8 c10Doc "hello" (by decide)

/-- C10: a dotted-path update of length at least 2 whose first component
addresses an existing non-mapping value raises an uncaught `TypeError`
(the navigation indexes into the non-dict), rather than returning any
error result. -/
theorem claimC10 (key : String) (v : Yaml) (st : AppState) (m : YamlMap)
    (k : String) (ks : List String) (val : Yaml)
    (hsplit : splitChar '.' key = k :: ks) (hks : ks ≠ [])
    (hset : st.settings = .map m) (hv : m.lookup k = some val) (hnm : val.isMap = false) :
    update_and_save key v st = .error .typeError := by
  obtain ⟨k1, ks1, rfl⟩ : ∃ k1 ks1, ks = k1 :: ks1 := by
    cases ks with
    | nil => exact absurd rfl hks
    | cons a b => exact ⟨a, b, rfl⟩
  rw [update_and_save, hsplit, hset]
  simp only [setPath, hv]
  rw [setPath_nonmap v k1 ks1 val hnm]

/-- Witness for C10: updating `prompt.system` on a legacy bare-string
prompt document raises `TypeError`. -/
theorem claimC10_witness :
    update_and_save "prompt.system" (.str "sys") ⟨.map c10Doc, ⟨none⟩⟩ = .error .typeError :=
  claimC10 "prompt.system" (.str "sys") ⟨.map c10Doc, ⟨none⟩⟩ c10Doc "prompt" ["system"]
    (.str "hello") (by decide) (by decide) rfl (by decide) (by decide)

/-- C5: `update_and_save("model.provider", v)` on a document whose `model`
is a mapping (or absent, in which case an intermediate mapping is created)
succeeds, saves, and changes only `model.provider`: every other top-level
key (`model` apart) — in particular `search`, `prompt`, `structure`,
`examples`, `logfire` — and every other key inside `model` — in
particular `name` — look up to the same value as before. -/
theorem claimC5 (m mm : YamlMap) (v : Yaml) (st : AppState)
    (hset : st.settings = .map m)
    (hm : m.lookup "model" = some (.map mm) ∨ (m.lookup "model" = none ∧ mm = .nil)) :
    update_and_save "model.provider" v st =
      .ok (true, ⟨.map (m.setKey "model" (.map (mm.setKey "provider" v))),
        ⟨some (Yaml.dump (.map (m.setKey "model" (.map (mm.setKey "provider" v)))))⟩⟩)
    ∧ (∀ k2, k2 ≠ "model" →
        (m.setKey "model" (.map (mm.setKey "provider" v))).lookup k2 = m.lookup k2)
    ∧ (mm.setKey "provider" v).lookup "provider" = some v
    ∧ (∀ k2, k2 ≠ "provider" → (mm.setKey "provider" v).lookup k2 = mm.lookup k2) := by
  have hsplit : splitChar '.' "model.provider" = ["model", "provider"] := by decide
  refine ⟨?_, fun k2 hk2 => YamlMap.lookup_setKey_ne _ _ _ hk2 m,
    YamlMap.lookup_setKey_self _ _ mm,
    fun k2 hk2 => YamlMap.lookup_setKey_ne _ _ _ hk2 mm⟩
  rw [update_and_save, hsplit, hset]
  rcases hm with hm | ⟨hm, rfl⟩
  · simp only [setPath, hm]
    rw [save_settings_ok _ _ (by simp)]
  · simp only [setPath, hm]
    rw [save_settings_ok _ _ (by simp)]

/-- Witness for C5: switching the provider to `anthropic` on a concrete
document leaves `logfire` and `model.name` untouched. -/
theorem claimC5_witness :
    update_and_save "model.provider" (.str "anthropic") ⟨.map c5Doc, ⟨none⟩⟩ =
      .ok (true, ⟨.map (c5Doc.setKey "model"
            (.map (c5Model.setKey "provider" (.str "anthropic")))),
        ⟨some (Yaml.dump (.map (c5Doc.setKey "model"
          (.map (c5Model.setKey "provider" (.str "anthropic"))))))⟩⟩)
    ∧ (c5Doc.setKey "model" (.map (c5Model.setKey "provider" (.str "anthropic")))).lookup
        "logfire" = c5Doc.lookup "logfire"
    ∧ (c5Model.setKey "provider" (.str "anthropic")).lookup "provider"
        = some (.str "anthropic")
    ∧ (c5Model.setKey "provider" (.str "anthropic")).lookup "name" = c5Model.lookup "name" := by
  have h := claimC5 c5Doc c5Model (.str "anthropic") ⟨.map c5Doc, ⟨none⟩⟩ rfl
    (Or.inl (by decide))
  exact ⟨h.1, h.2.1 "logfire" (by decide), h.2.2.1, h.2.2.2 "name" (by decide)⟩

/-- C2, as stated, is false: on parse success the Import Configuration
handler saves the parsed document to the file but does not replace the
in-memory document.  At the concrete input below (importing the dump of
`c2Doc` into a session holding the default document) the handler reports
success and writes `c2Doc` to the file, yet the in-memory document is
still the default one, not `c2Doc`. -/
theorem claimC2_counterexample :
    importConfig (Yaml.dump c2Doc) ⟨defaultSettings, ⟨none⟩⟩ =
      (.success, ⟨defaultSettings, ⟨some (Yaml.dump c2Doc)⟩⟩)
    ∧ defaultSettings ≠ c2Doc := by
  refine ⟨?_, by decide⟩
  simp only [importConfig, pySafeLoad_dump]
  rw [save_settings_ok _ _ (by decide)]
  rfl

/-- C2 amended: import parses the upload; on success (of a non-null
document) it calls save, persisting the parsed document, but always
leaves the in-memory document unchanged; on parse failure it leaves the
whole state untouched and reports the parse error. -/
theorem claimC2_amended (raw : List Tok) (st : AppState) :
    (importConfig raw st).2.settings = st.settings
    ∧ (∀ d, pySafeLoad raw = .ok d → d ≠ Yaml.null →
        importConfig raw st = (.success, ⟨st.settings, ⟨some (Yaml.dump d)⟩⟩))
    ∧ (∀ e, pySafeLoad raw = .error e → importConfig raw st = (.parseFailed, st)) := by
  refine ⟨?_, ?_, ?_⟩
  · rw [importConfig]
    cases hE : pySafeLoad raw with
    | error e => rfl
    | ok d =>
        rcases hsv : save_settings d st.fs with ⟨ok, fs'⟩
        simp [hsv]
  · intro d hok hnn
    simp only [importConfig, hok]
    rw [save_settings_ok d st.fs hnn]
    rfl
  · intro e he
    rw [importConfig, he]

/-- Witness for the amended C2: a successful import keeps the in-memory
default document while writing the parsed one; a malformed upload changes
nothing. -/
theorem claimC2_amended_witness :
    (importConfig (Yaml.dump c2Doc) ⟨defaultSettings, ⟨some []⟩⟩).2.settings = defaultSettings
    ∧ importConfig (Yaml.dump c2Doc) ⟨defaultSettings, ⟨some []⟩⟩ =
        (.success, ⟨defaultSettings, ⟨some (Yaml.dump c2Doc)⟩⟩)
    ∧ importConfig [Tok.seqR] ⟨defaultSettings, ⟨some []⟩⟩ =
        (.parseFailed, ⟨defaultSettings, ⟨some []⟩⟩) := by
  have h1 := claimC2_amended (Yaml.dump c2Doc) ⟨defaultSettings, ⟨some []⟩⟩
  have h2 := claimC2_amended [Tok.seqR] ⟨defaultSettings, ⟨some []⟩⟩
  exact ⟨h1.1, h1.2.1 c2Doc (pySafeLoad_dump c2Doc) (by decide),
    h2.2.2 PyErr.yamlError (by simp [pySafeLoad, parseDoc, parse, parseVal])⟩

/-- C3, as stated, is false: the download serialization uses PyYAML's
default `sort_keys=True` while `save_settings` passes `sort_keys=False`,
so on the default document (whose top-level keys are not alphabetized) the
export byte sequence differs from the byte sequence save writes. -/
theorem claimC3_counterexample :
    exportConfig defaultSettings ≠ Yaml.dump defaultSettings
    ∧ (save_settings defaultSettings ⟨none⟩).2.file = some (Yaml.dump defaultSettings) := by
  exact ⟨by decide, by decide⟩

/-- C3 amended: export serializes with every mapping's keys alphabetized
(`sort_keys=True`), save with insertion order kept; the two byte sequences
coincide precisely on documents whose mappings are all already key-sorted. -/
theorem claimC3_amended (d : Yaml) (fs : FS) (h : d.allSorted = true) :
    exportConfig d = Yaml.dump d
    ∧ (d ≠ Yaml.null → (save_settings d fs).2.file = some (Yaml.dump d)) := by
  constructor
  · rw [exportConfig, pyDump, if_pos rfl, Yaml.sortAll_of_allSorted d h]
  · intro hn
    rw [save_settings_ok d fs hn]

/-- Witness for the amended C3 on a small key-sorted document. -/
theorem claimC3_amended_witness :
    exportConfig (.map (.cons "a" (.int 1) (.cons "b" (.int 2) .nil))) =
      Yaml.dump (.map (.cons "a" (.int 1) (.cons "b" (.int 2) .nil)))
    ∧ (save_settings (.map (.cons "a" (.int 1) (.cons "b" (.int 2) .nil))) ⟨none⟩).2.file =
        some (Yaml.dump (.map (.cons "a" (.int 1) (.cons "b" (.int 2) .nil)))) := by
  have h := claimC3_amended (.map (.cons "a" (.int 1) (.cons "b" (.int 2) .nil))) ⟨none⟩
    (by decide)
  exact ⟨h.1, h.2 (by decide)⟩

/-- C7, as stated, is false: the empty mapping is a valid ConfigDocument
(all top-level keys are optional), but save followed by load does not
return it — the loaded empty document is falsy, so `load_settings`
substitutes the built-in default document. -/
theorem claimC7_counterexample :
    ConfigValid (Yaml.map .nil) = true
    ∧ (load_settings (save_settings (Yaml.map .nil) ⟨none⟩).2).1 ≠ Yaml.map .nil := by
  refine ⟨by decide, ?_⟩
  rw [save_settings_ok _ _ (by decide), load_settings]
  simp only [pySafeLoad_dump]
  decide

/-- C7 amended: for every valid, truthy (non-empty) ConfigDocument,
save followed by load is the identity; parsing the export bytes yields the
key-sorted tree `d.sortAll`, which equals `d` itself whenever `d`'s
mappings are already key-sorted (Python `==` on dicts ignores key order,
so the original claim holds there up to that reordering). -/
theorem claimC7_amended (d : Yaml) (fs : FS) (_hvalid : ConfigValid d = true)
    (htruthy : d.truthy = true) :
    (load_settings (save_settings d fs).2).1 = d
    ∧ pySafeLoad (exportConfig d) = .ok d.sortAll
    ∧ (d.allSorted = true → d.sortAll = d) := by
  refine ⟨?_, ?_, Yaml.sortAll_of_allSorted d⟩
  · rw [save_settings_ok d fs (Yaml.ne_null_of_truthy d htruthy), load_settings]
    simp only [pySafeLoad_dump, htruthy, if_true]
  · rw [exportConfig, pyDump, if_pos rfl]
    exact pySafeLoad_dump d.sortAll

/-- Witness for the amended C7 on the default document. -/
theorem claimC7_amended_witness :
    (load_settings (save_settings defaultSettings ⟨none⟩).2).1 = defaultSettings
    ∧ pySafeLoad (exportConfig defaultSettings) = .ok defaultSettings.sortAll := by
  have h := claimC7_amended defaultSettings ⟨none⟩ (by decide) (by decide)
  exact ⟨h.1, h.2.1⟩

/-- C9: `saved_settings` is bound nowhere in the program, so in every
environment made of the names the program does bind, the first document
access of each of the Output Structure, Examples and Advanced
Configuration sections raises `NameError` before reading or writing the
document. -/
theorem claimC9 :
    "saved_settings" ∉ assignedNames
    ∧ ∀ env : List (String × Yaml), (∀ p ∈ env, p.1 ∈ assignedNames) →
        outputStructureFirstRead env = .error .nameError
        ∧ examplesFirstRead env = .error .nameError
        ∧ advancedFirstRead env = .error .nameError := by
  have hnot : "saved_settings" ∉ assignedNames := by decide
  refine ⟨hnot, fun env henv => ?_⟩
  have h : evalName env "saved_settings" = .error .nameError :=
    evalName_unbound _ env (fun p hp he => hnot (he ▸ henv p hp))
  exact ⟨by simp [outputStructureFirstRead, h], by simp [examplesFirstRead, h],
    by simp [advancedFirstRead, h]⟩

/-- Witness for C9 in a concrete environment of program-bound names. -/
theorem claimC9_witness :
    outputStructureFirstRead [("examples", Yaml.seq .nil)] = .error .nameError
    ∧ examplesFirstRead [("examples", Yaml.seq .nil)] = .error .nameError
    ∧ advancedFirstRead [("examples", Yaml.seq .nil)] = .error .nameError :=
  claimC9.2 [("examples", Yaml.seq .nil)] (by decide)
